import Mathlib

/-!
Verification of the secure record pipeline (Node.js service under src/ and its
C# SecureTodo counterpart).  Bytes are modelled as natural numbers (values
below 256), byte strings as lists of naturals, and machine-word arithmetic is
performed with explicit reductions modulo powers of two.  Randomness (IVs,
salts, fresh tokens) and the wall clock are passed as explicit arguments, and
fallible operations return Option or Except values.
-/

namespace SecureTodo

/-! ## Byte-string basics -/

/-- Pointwise XOR of two byte strings, truncated to the shorter one
(matches buffer XOR in counter-mode encryption). -/
def xorBytes (a b : List Nat) : List Nat :=
  List.zipWith (fun x y => x ^^^ y) a b

/-- Big-endian interpretation of a byte string as a natural number. -/
def bytesToNatBE (l : List Nat) : Nat :=
  l.foldl (fun acc b => acc * 256 + b) 0

/-- Big-endian encoding of a natural number on a fixed number of bytes. -/
def natToBytesBE (len n : Nat) : List Nat :=
  (List.range len).map (fun i => n / 256 ^ (len - 1 - i) % 256)

/-! ## AES-256 block cipher (FIPS-197)

The Node.js service calls the platform cipher aes-256-gcm; the block function
below is the FIPS-197 algorithm it invokes.  The S-box is computed from its
definition (multiplicative inverse in GF(2^8) followed by the affine map)
rather than transcribed as a table. -/

/-- Multiplication in GF(2^8) modulo the AES polynomial x^8+x^4+x^3+x+1. -/
def gfMulByte (a b : Nat) : Nat :=
  ((List.range 8).foldl (fun (p : Nat × Nat × Nat) _ =>
    let acc := if p.2.2 % 2 = 1 then p.1 ^^^ p.2.1 else p.1
    let a2 := if p.2.1 < 128 then 2 * p.2.1 else ((2 * p.2.1) % 256) ^^^ 27
    (acc, a2, p.2.2 / 2)) (0, a, b)).1

/-- Exponentiation in GF(2^8). -/
def gfPow (b n : Nat) : Nat :=
  (List.range n).foldl (fun acc _ => gfMulByte acc b) 1

/-- Rotate an 8-bit value left by k positions. -/
def rotl8 (x k : Nat) : Nat :=
  (((x % 256) <<< k) ||| ((x % 256) >>> (8 - k))) % 256

/-- The AES S-box: multiplicative inverse (with 0 mapped to 0, obtained as
x^254) followed by the FIPS-197 affine transformation. -/
def sboxByte (b : Nat) : Nat :=
  let i := gfPow b 254
  i ^^^ rotl8 i 1 ^^^ rotl8 i 2 ^^^ rotl8 i 3 ^^^ rotl8 i 4 ^^^ 0x63

/-- SubBytes step. -/
def subBytes (s : List Nat) : List Nat := s.map sboxByte

/-- ShiftRows step on the column-major 16-byte state: row r is rotated left
by r columns. -/
def shiftRows (s : List Nat) : List Nat :=
  (List.range 16).map (fun i => s.getD (i % 4 + 4 * ((i / 4 + i % 4) % 4)) 0)

/-- Multiplication by x in GF(2^8). -/
def mul2 (b : Nat) : Nat := if b < 128 then 2 * b else ((2 * b) % 256) ^^^ 27

/-- Multiplication by x+1 in GF(2^8). -/
def mul3 (b : Nat) : Nat := mul2 b ^^^ b

/-- MixColumns step. -/
def mixColumns (s : List Nat) : List Nat :=
  (List.range 16).map (fun i =>
    let c := i / 4
    let b0 := s.getD (4 * c) 0
    let b1 := s.getD (4 * c + 1) 0
    let b2 := s.getD (4 * c + 2) 0
    let b3 := s.getD (4 * c + 3) 0
    match i % 4 with
    | 0 => mul2 b0 ^^^ mul3 b1 ^^^ b2 ^^^ b3
    | 1 => b0 ^^^ mul2 b1 ^^^ mul3 b2 ^^^ b3
    | 2 => b0 ^^^ b1 ^^^ mul2 b2 ^^^ mul3 b3
    | _ => mul3 b0 ^^^ b1 ^^^ b2 ^^^ mul2 b3)

/-- AddRoundKey step. -/
def addRoundKey (s k : List Nat) : List Nat :=
  (List.range 16).map (fun i => s.getD i 0 ^^^ k.getD i 0)

/-- Rotate a 4-byte key-schedule word. -/
def rotWord (w : List Nat) : List Nat := w.drop 1 ++ w.take 1

/-- Apply the S-box to every byte of a key-schedule word. -/
def subWord (w : List Nat) : List Nat := w.map sboxByte

/-- Round constants used by the AES-256 key schedule. -/
def rconByte (i : Nat) : Nat := [1, 2, 4, 8, 16, 32, 64].getD (i - 1) 0

/-- XOR of two key-schedule words. -/
def xorWord (a b : List Nat) : List Nat := List.zipWith (fun x y => x ^^^ y) a b

/-- One step of the AES-256 key expansion (FIPS-197 section 5.2, Nk = 8). -/
def keyWordStep (key : List Nat) (ws : List (List Nat)) : List Nat :=
  let i := ws.length
  if i < 8 then (key.drop (4 * i)).take 4
  else
    let prev := ws.getD (i - 1) []
    let old := ws.getD (i - 8) []
    if i % 8 = 0 then
      xorWord old (xorWord (subWord (rotWord prev)) [rconByte (i / 8), 0, 0, 0])
    else if i % 8 = 4 then xorWord old (subWord prev)
    else xorWord old prev

/-- The first n words of the AES-256 key schedule. -/
def expandKeyWords (key : List Nat) : Nat → List (List Nat)
  | 0 => []
  | n + 1 =>
    let ws := expandKeyWords key n
    ws ++ [keyWordStep key ws]

/-- The fifteen 16-byte round keys of AES-256. -/
def roundKeys (key : List Nat) : List (List Nat) :=
  (List.range 15).map (fun r =>
    (((expandKeyWords key 60).drop (4 * r)).take 4).flatten)

/-- AES-256 encryption of one 16-byte block (14 rounds). -/
def aesEncryptBlock (key block : List Nat) : List Nat :=
  let ks := roundKeys key
  let s0 := addRoundKey block (ks.getD 0 [])
  let sMid := (List.range 13).foldl
    (fun s r => addRoundKey (mixColumns (shiftRows (subBytes s))) (ks.getD (r + 1) []))
    s0
  addRoundKey (shiftRows (subBytes sMid)) (ks.getD 14 [])

/-! ## GCM mode (NIST SP 800-38D), 12-byte IV, empty associated data -/

/-- Multiplication in GF(2^128) on 128-bit block values (SP 800-38D
section 6.3). -/
def gf128Mul (x y : Nat) : Nat :=
  ((List.range 128).foldl (fun (p : Nat × Nat) i =>
    let z := if (x >>> (127 - i)) % 2 = 1 then p.1 ^^^ p.2 else p.1
    let v := if p.2 % 2 = 1
      then (p.2 >>> 1) ^^^ 0xe1000000000000000000000000000000
      else p.2 >>> 1
    (z, v)) (0, y)).1

/-- The GHASH function over a list of 128-bit block values. -/
def ghash (h : Nat) (blocks : List Nat) : Nat :=
  blocks.foldl (fun y b => gf128Mul (y ^^^ b) h) 0

/-- The ciphertext split into zero-padded 128-bit block values. -/
def ghashBlocks (ct : List Nat) : List Nat :=
  (List.range ((ct.length + 15) / 16)).map (fun i =>
    let blk := (ct.drop (16 * i)).take 16
    bytesToNatBE (blk ++ List.replicate (16 - blk.length) 0))

/-- The GCM authentication tag for a ciphertext (no associated data): GHASH
under H = E_K(0^128) of the padded ciphertext and the length block, masked
with E_K(J0). -/
def gcmTag (key iv ct : List Nat) : List Nat :=
  let h := bytesToNatBE (aesEncryptBlock key (List.replicate 16 0))
  let s := ghash h (ghashBlocks ct ++ [(8 * ct.length) % 18446744073709551616])
  xorBytes (aesEncryptBlock key (iv ++ natToBytesBE 4 1)) (natToBytesBE 16 s)

/-- The CTR keystream: blocks E_K(IV ‖ 2), E_K(IV ‖ 3), ... truncated to the
message length. -/
def keystream (key iv : List Nat) (n : Nat) : List Nat :=
  ((List.range ((n + 15) / 16)).flatMap
    (fun i => aesEncryptBlock key (iv ++ natToBytesBE 4 (i + 2)))).take n

/-- GCM authenticated encryption: returns the ciphertext (same length as the
plaintext) and the 16-byte tag. -/
def gcmEncrypt (key iv pt : List Nat) : List Nat × List Nat :=
  let ct := xorBytes pt (keystream key iv pt.length)
  (ct, gcmTag key iv ct)

/-- GCM authenticated decryption: recompute the tag over the ciphertext and
release the plaintext only when the tag verifies. -/
def gcmDecrypt (key iv ct tag : List Nat) : Option (List Nat) :=
  if tag = gcmTag key iv ct then some (xorBytes ct (keystream key iv ct.length))
  else none

/-! ## Base64 decoding (Buffer.from(s, base64): non-alphabet characters are
skipped, six-bit groups are packed and only whole bytes are kept) -/

/-- The value of one base64 alphabet character. -/
def b64Val (c : Char) : Option Nat :=
  if 'A' ≤ c ∧ c ≤ 'Z' then some (c.toNat - 65)
  else if 'a' ≤ c ∧ c ≤ 'z' then some (c.toNat - 97 + 26)
  else if '0' ≤ c ∧ c ≤ '9' then some (c.toNat - 48 + 52)
  else if c = '+' then some 62
  else if c = '/' then some 63
  else none

/-- Pack a list of six-bit values into bytes, three per group of four,
keeping only whole bytes of a trailing partial group. -/
def b64Groups : List Nat → List Nat
  | a :: b :: c :: d :: rest =>
    (a * 4 + b / 16) :: ((b % 16) * 16 + c / 4) :: ((c % 4) * 64 + d) :: b64Groups rest
  | [a, b] => [a * 4 + b / 16]
  | [a, b, c] => [a * 4 + b / 16, (b % 16) * 16 + c / 4]
  | _ => []

/-- Decode a base64 string to bytes the way Buffer.from(s, base64) does. -/
def base64decode (s : String) : List Nat :=
  b64Groups (s.data.filterMap b64Val)

/-! ## src/utils/crypto.js -/

namespace Crypto

/-- getEncryptionKey: reads AES_KEY from the environment (None models an
unset variable, the empty string is falsy as in the source), decodes it from
base64 and requires exactly 32 bytes. -/
def getEncryptionKey (env : Option String) : Except String (List Nat) :=
  match env with
  | none => .error "AES_KEY environment variable is not set"
  | some s =>
    if s = "" then .error "AES_KEY environment variable is not set"
    else
      let key := base64decode s
      if key.length ≠ 32 then .error "AES key must be 32 bytes (256 bits)"
      else .ok key

/-- encrypt: loads the key, encrypts under a fresh random 12-byte IV (the
randomness is the explicit ivRand argument) and returns the triple
(encryptedContent, iv, authTag); any failure is rethrown with the
Encryption-failed prefix. -/
def encrypt (env : Option String) (ivRand pt : List Nat) :
    Except String (List Nat × List Nat × List Nat) :=
  match getEncryptionKey env with
  | .error e => .error ("Encryption failed: " ++ e)
  | .ok key =>
    let r := gcmEncrypt key ivRand pt
    .ok (r.1, ivRand, r.2)

/-- decrypt: loads the key and performs GCM decryption; a tag-verification
failure surfaces as the Decryption-failed error, and no plaintext bytes are
returned in that case. -/
def decrypt (env : Option String) (ct iv tag : List Nat) : Except String (List Nat) :=
  match getEncryptionKey env with
  | .error e => .error ("Decryption failed: " ++ e)
  | .ok key =>
    match gcmDecrypt key iv ct tag with
    | some pt => .ok pt
    | none => .error "Decryption failed: Unsupported state or unable to authenticate data"

/-- The object returned by verifyKeyConfiguration (the error branch of the
source returns no valid field, which reads back as falsy). -/
structure KeyConfigReport where
  configured : Bool
  valid : Bool
deriving DecidableEq, Repr

/-- verifyKeyConfiguration: startup-time check reporting whether the key
loads and has the right length. -/
def verifyKeyConfiguration (env : Option String) : KeyConfigReport :=
  match getEncryptionKey env with
  | .ok key => ⟨true, decide (key.length = 32)⟩
  | .error _ => ⟨false, false⟩

end Crypto

/-! ## SHA-256 (FIPS 180-4), the hash behind crypto.createHash in
src/utils/hash.js and SHA256.HashData in HashService.cs -/

/-- Rotate a 32-bit word right by n positions. -/
def rotr32 (n x : Nat) : Nat := ((x >>> n) ||| (x <<< (32 - n))) % 4294967296

/-- The 64 SHA-256 round constants. -/
def shaK : List Nat :=
  [1116352408, 1899447441, 3049323471, 3921009573, 961987163, 1508970993,
   2453635748, 2870763221, 3624381080, 310598401, 607225278, 1426881987,
   1925078388, 2162078206, 2614888103, 3248222580, 3835390401, 4022224774,
   264347078, 604807628, 770255983, 1249150122, 1555081692, 1996064986,
   2554220882, 2821834349, 2952996808, 3210313671, 3336571891, 3584528711,
   113926993, 338241895, 666307205, 773529912, 1294757372, 1396182291,
   1695183700, 1986661051, 2177026350, 2456956037, 2730485921, 2820302411,
   3259730800, 3345764771, 3516065817, 3600352804, 4094571909, 275423344,
   430227734, 506948616, 659060556, 883997877, 958139571, 1322822218,
   1537002063, 1747873779, 1955562222, 2024104815, 2227730452, 2361852424,
   2428436474, 2756734187, 3204031479, 3329325298]

/-- The SHA-256 initial hash value. -/
def shaH0 : List Nat :=
  [1779033703, 3144134277, 1013904242, 2773480762,
   1359893119, 2600822924, 528734635, 1541459225]

/-- Small sigma-0 message-schedule function. -/
def ssig0 (x : Nat) : Nat := rotr32 7 x ^^^ rotr32 18 x ^^^ (x >>> 3)

/-- Small sigma-1 message-schedule function. -/
def ssig1 (x : Nat) : Nat := rotr32 17 x ^^^ rotr32 19 x ^^^ (x >>> 10)

/-- Big sigma-0 compression function. -/
def bsig0 (x : Nat) : Nat := rotr32 2 x ^^^ rotr32 13 x ^^^ rotr32 22 x

/-- Big sigma-1 compression function. -/
def bsig1 (x : Nat) : Nat := rotr32 6 x ^^^ rotr32 11 x ^^^ rotr32 25 x

/-- The SHA-256 choice function. -/
def shaCh (x y z : Nat) : Nat := (x &&& y) ^^^ ((x ^^^ 0xffffffff) &&& z)

/-- The SHA-256 majority function. -/
def shaMaj (x y z : Nat) : Nat := (x &&& y) ^^^ (x &&& z) ^^^ (y &&& z)

/-- Extend the 16 block words by n further message-schedule words. -/
def extendW (w16 : List Nat) : Nat → List Nat
  | 0 => w16
  | n + 1 =>
    let w := extendW w16 n
    let j := w.length
    w ++ [(ssig1 (w.getD (j - 2) 0) + w.getD (j - 7) 0
           + ssig0 (w.getD (j - 15) 0) + w.getD (j - 16) 0) % 4294967296]

/-- One round of the SHA-256 compression function on the eight-word state. -/
def shaStep (w : List Nat) (st : List Nat) (i : Nat) : List Nat :=
  let a := st.getD 0 0
  let b := st.getD 1 0
  let c := st.getD 2 0
  let d := st.getD 3 0
  let e := st.getD 4 0
  let f := st.getD 5 0
  let g := st.getD 6 0
  let h := st.getD 7 0
  let t1 := (h + bsig1 e + shaCh e f g + shaK.getD i 0 + w.getD i 0) % 4294967296
  let t2 := (bsig0 a + shaMaj a b c) % 4294967296
  [(t1 + t2) % 4294967296, a, b, c, (d + t1) % 4294967296, e, f, g]

/-- Process one 64-byte block. -/
def shaBlock (h : List Nat) (block : List Nat) : List Nat :=
  let w16 := (List.range 16).map (fun i => bytesToNatBE ((block.drop (4 * i)).take 4))
  let w := extendW w16 48
  let st := (List.range 64).foldl (shaStep w) h
  (List.range 8).map (fun i => (h.getD i 0 + st.getD i 0) % 4294967296)

/-- FIPS 180-4 padding: a 1 bit, zeros, and the 64-bit message bit length. -/
def shaPad (msg : List Nat) : List Nat :=
  msg ++ [128] ++ List.replicate ((64 - (msg.length + 9) % 64) % 64) 0
      ++ natToBytesBE 8 (8 * msg.length)

/-- SHA-256 of a byte string, as 32 bytes. -/
def sha256 (msg : List Nat) : List Nat :=
  let p := shaPad msg
  ((List.range (p.length / 64)).foldl
    (fun h i => shaBlock h ((p.drop (64 * i)).take 64)) shaH0).flatMap (natToBytesBE 4)

/-- One lowercase hexadecimal digit. -/
def hexDigit (n : Nat) : Char := "0123456789abcdef".data.getD (n % 16) '0'

/-- Lowercase hexadecimal rendering of a byte string (digest(hex) in Node,
Convert.ToHexString(...).ToLowerInvariant() in C#). -/
def hexLower (l : List Nat) : String :=
  String.mk (l.flatMap (fun b => [hexDigit (b / 16), hexDigit b]))

/-- ASCII lowercase folding of a string, the effect of
StringComparison.OrdinalIgnoreCase on hexadecimal text. -/
def asciiLower (s : String) : String := String.mk (s.data.map Char.toLower)

/-- ASCII uppercase folding of a string, used to build case-variant
digests. -/
def asciiUpper (s : String) : String := String.mk (s.data.map Char.toUpper)

/-! ## src/utils/hash.js -/

namespace Hash

/-- computeSHA256: the hex-encoded SHA-256 digest of the content (the
content string is modelled by its UTF-8 bytes). -/
def computeSHA256 (content : List Nat) : String := hexLower (sha256 content)

/-- verifyIntegrity: recompute the digest of the content and compare with
the stored hash by exact string equality. -/
def verifyIntegrity (content : List Nat) (storedHash : String) : Bool :=
  computeSHA256 content == storedHash

end Hash

/-! ## src/src/SecureTodo.Infrastructure/Security/HashService.cs -/

namespace HashService

/-- ComputeSHA256: lowercase hex SHA-256 digest, as in the C# service. -/
def ComputeSHA256 (content : List Nat) : String := hexLower (sha256 content)

/-- VerifyIntegrity: recompute and compare with
StringComparison.OrdinalIgnoreCase, i.e. up to ASCII case folding. -/
def VerifyIntegrity (content : List Nat) (storedHash : String) : Bool :=
  asciiLower (ComputeSHA256 content) == asciiLower storedHash

end HashService

/-! ## src/middleware/auth.js — JSON Web Tokens

A signed JWT is modelled symbolically: its payload plus the secret it was
signed with and its validity window.  jwt.verify succeeds exactly when the
verifying secret equals the signing secret and the token is unexpired, which
is the standard symbolic model of an HMAC-signed token. -/

/-- The claims the service puts in its tokens: the subject id, and for
refresh tokens the literal claim type = refresh. -/
structure JwtPayload where
  userId : Nat
  type : Option String
deriving DecidableEq, Repr

/-- A signed JWT: payload, signing secret, issue and expiry times (seconds). -/
structure Jwt where
  payload : JwtPayload
  secret : String
  iat : Nat
  exp : Nat
deriving DecidableEq, Repr

/-- jwt.verify: signature check (secret equality in the symbolic model) and
expiry check; the payload claims are otherwise not inspected. -/
def jwtVerify (t : Jwt) (secret : String) (now : Nat) : Except String JwtPayload :=
  if t.secret ≠ secret then .error "JsonWebTokenError"
  else if t.exp ≤ now then .error "TokenExpiredError"
  else .ok t.payload

/-- The environment variables the Node auth middleware reads. -/
structure JsEnv where
  jwtSecret : String
  jwtRefreshSecret : Option String
  jwtExpiresIn : Option Nat
  jwtRefreshExpiresIn : Option Nat
deriving Repr

/-- The access-token lifetime: JWT_EXPIRES_IN or the 1h default. -/
def accessTtl (env : JsEnv) : Nat := env.jwtExpiresIn.getD 3600

/-- The refresh-token lifetime: JWT_REFRESH_EXPIRES_IN or the 7d default. -/
def refreshTtl (env : JsEnv) : Nat := env.jwtRefreshExpiresIn.getD 604800

/-- The secret refresh tokens are signed and verified with:
JWT_REFRESH_SECRET, falling back to JWT_SECRET when unset. -/
def refreshSecret (env : JsEnv) : String := env.jwtRefreshSecret.getD env.jwtSecret

namespace AuthMw

/-- generateAccessToken: sign the claim set containing only userId with
JWT_SECRET, expiring after the access lifetime. -/
def generateAccessToken (env : JsEnv) (userId now : Nat) : Jwt :=
  ⟨⟨userId, none⟩, env.jwtSecret, now, now + accessTtl env⟩

/-- generateRefreshToken: sign a JWT carrying userId and type = refresh with
the refresh secret (fallback JWT_SECRET), expiring after the refresh
lifetime. -/
def generateRefreshToken (env : JsEnv) (userId now : Nat) : Jwt :=
  ⟨⟨userId, some "refresh"⟩, refreshSecret env, now, now + refreshTtl env⟩

/-- verifyRefreshToken: jwt.verify under the refresh secret (fallback
JWT_SECRET); nothing but signature and expiry is checked. -/
def verifyRefreshToken (env : JsEnv) (t : Jwt) (now : Nat) : Except String JwtPayload :=
  jwtVerify t (refreshSecret env) now

end AuthMw

/-! ## src/models/User.js -/

/-- A stored Node user.  passwordHash is absent for Google-only accounts. -/
structure JsUser where
  id : Nat
  email : String
  username : String
  passwordHash : Option String
  googleId : Option String
deriving DecidableEq, Repr

/-- Truthiness of an optional string in JavaScript: unset and the empty
string are falsy. -/
def strFalsy : Option String → Bool
  | none => true
  | some s => s.isEmpty

/-- comparePassword: returns false outright when no passwordHash is stored
(Google OAuth accounts), otherwise defers to bcrypt.compare.  The behaviour
of the external bcrypt library is the bcryptCompare argument. -/
def comparePassword (bcryptCompare : String → String → Bool)
    (u : JsUser) (candidate : String) : Bool :=
  if strFalsy u.passwordHash then false
  else bcryptCompare candidate (u.passwordHash.getD "")

/-! ## Authentication controller (login and refresh routes) -/

/-- Outcome of the login route, as distinguished by the HTTP responses of
the source. -/
inductive LoginResult where
  | invalidCredentials : LoginResult
  | googleOnly : LoginResult
  | success (accessToken refreshToken : Jwt) : LoginResult
deriving DecidableEq, Repr

namespace AuthController

/-- login: look the user up by email; reject unknown emails, reject
password logins against Google-only credentials (falsy passwordHash) before
ever consulting bcrypt, reject bad passwords, and otherwise issue a token
pair. -/
def login (env : JsEnv) (bcryptCompare : String → String → Bool)
    (users : List JsUser) (email password : String) (now : Nat) : LoginResult :=
  match users.find? (fun u => u.email == email) with
  | none => .invalidCredentials
  | some u =>
    if strFalsy u.passwordHash then .googleOnly
    else if ¬ comparePassword bcryptCompare u password then .invalidCredentials
    else .success (AuthMw.generateAccessToken env u.id now)
      (AuthMw.generateRefreshToken env u.id now)

/-- Outcome of the refresh route.  The success response of the source
carries a new access token only — no new refresh token is issued. -/
inductive RefreshResult where
  | missingToken : RefreshResult
  | invalidToken : RefreshResult
  | userNotFound : RefreshResult
  | success (accessToken : Jwt) : RefreshResult
deriving DecidableEq, Repr

/-- refresh: verify the presented refresh token (signature and expiry
only), confirm the subject still exists, and mint a new access token.  The
route keeps no server-side token state: nothing is looked up in a store,
nothing is revoked, and the verified token stays valid. -/
def refresh (env : JsEnv) (userIds : List Nat) (body : Option Jwt) (now : Nat) :
    RefreshResult :=
  match body with
  | none => .missingToken
  | some t =>
    match AuthMw.verifyRefreshToken env t now with
    | .error _ => .invalidToken
    | .ok decoded =>
      if userIds.contains decoded.userId then
        .success (AuthMw.generateAccessToken env decoded.userId now)
      else .userNotFound

end AuthController

/-! ## src/controllers/todoController.js -/

/-- A stored todo record: owner, the four encrypted-record fields, and
timestamps. -/
structure JsTodo where
  id : Nat
  userId : Nat
  encryptedContent : List Nat
  iv : List Nat
  authTag : List Nat
  integrityHash : String
  createdAt : Nat
  updatedAt : Nat
deriving DecidableEq, Repr

/-- What the read path returns for one record: either the decrypted bytes
or a policy marker string replacing them. -/
inductive ViewContent where
  | text (pt : List Nat) : ViewContent
  | marker (s : String) : ViewContent
deriving DecidableEq, Repr

/-- One entry of the getTodos response. -/
structure TodoView where
  id : Nat
  content : ViewContent
  tampered : Bool
deriving DecidableEq, Repr

/-- The corrupted-content marker of the source. -/
def corruptedMsg : String := "[DECRYPTION FAILED - Content is corrupted]"

/-- The tampered-content marker of the source. -/
def tamperedMsg : String := "[INTEGRITY VIOLATION - Content may have been tampered with]"

namespace TodoController

/-- The body of the getTodos per-record loop: decrypt (a thrown
decryption error is caught at this per-record boundary), then verify the
integrity digest, and classify as corrupted, tampered or clean. -/
def readOne (env : Option String) (t : JsTodo) : TodoView :=
  match Crypto.decrypt env t.encryptedContent t.iv t.authTag with
  | .error _ => ⟨t.id, .marker corruptedMsg, true⟩
  | .ok pt =>
    if Hash.verifyIntegrity pt t.integrityHash then ⟨t.id, .text pt, false⟩
    else ⟨t.id, .marker tamperedMsg, true⟩

/-- The Todo.find query of getTodos: all records of the requesting user. -/
def findByUser (store : List JsTodo) (userId : Nat) : List JsTodo :=
  store.filter (fun t => t.userId == userId)

/-- getTodos over the fetched records: every record is processed by the
per-record loop body independently. -/
def getTodos (env : Option String) (todos : List JsTodo) : List TodoView :=
  todos.map (readOne env)

/-- Outcome of updateTodo and deleteTodo as distinguished by the HTTP
responses of the source. -/
inductive MutationResult where
  | notFound : MutationResult
  | updated : MutationResult
  | deleted : MutationResult
deriving DecidableEq, Repr

/-- The ownership-scoped query Todo.findOne of updateTodo: both the record
id and the requesting user id must match. -/
def findOwned (store : List JsTodo) (userId todoId : Nat) : Option JsTodo :=
  store.find? (fun t => t.id == todoId && t.userId == userId)

/-- updateTodo: find the record by id and owner; report not-found when the
query misses, otherwise replace all four encrypted-record fields with a
fresh encryption of the new content.  Returns the result and the new
store. -/
def updateTodo (env : Option String) (store : List JsTodo) (userId todoId : Nat)
    (ivRand content : List Nat) (now : Nat) : MutationResult × List JsTodo :=
  match findOwned store userId todoId with
  | none => (.notFound, store)
  | some _ =>
    match Crypto.encrypt env ivRand content with
    | .error _ => (.notFound, store)
    | .ok r =>
      (.updated, store.map (fun t =>
        if t.id == todoId && t.userId == userId then
          { t with
            encryptedContent := r.1
            iv := r.2.1
            authTag := r.2.2
            integrityHash := Hash.computeSHA256 content
            updatedAt := now }
        else t))

/-- Remove the first record matching the ownership-scoped query (the
semantics of deleteOne). -/
def eraseOwned (store : List JsTodo) (userId todoId : Nat) : List JsTodo :=
  match store with
  | [] => []
  | t :: rest =>
    if t.id == todoId && t.userId == userId then rest
    else t :: eraseOwned rest userId todoId

/-- deleteTodo: deleteOne on id and owner; deletedCount equal to zero is
reported as not-found, otherwise the record is removed and success is
reported. -/
def deleteTodo (store : List JsTodo) (userId todoId : Nat) :
    MutationResult × List JsTodo :=
  match findOwned store userId todoId with
  | none => (.notFound, store)
  | some _ => (.deleted, eraseOwned store userId todoId)

end TodoController

/-! ## C# AuthService (src/unnamed/part_002): server-side refresh tokens -/

/-- A stored RefreshToken row: the opaque token string, its revocation flag
and its expiry instant. -/
structure RefreshTokenRec where
  token : String
  isRevoked : Bool
  expiresAt : Nat
deriving DecidableEq, Repr

/-- A C# user together with its RefreshTokens collection. -/
structure CsUser where
  id : Nat
  email : String
  refreshTokens : List RefreshTokenRec
deriving DecidableEq, Repr

/-- The stored-token predicate of RefreshTokenAsync: same token string, not
revoked, not expired. -/
def activeTokenRec (tok : String) (now : Nat) (rt : RefreshTokenRec) : Bool :=
  rt.token == tok && !rt.isRevoked && decide (now < rt.expiresAt)

/-- Revoke the first stored row carrying the given token string (the
RefreshTokens.First(...).IsRevoked = true mutation). -/
def revokeFirst (l : List RefreshTokenRec) (tok : String) : List RefreshTokenRec :=
  match l with
  | [] => []
  | r :: rs =>
    if r.token == tok then { r with isRevoked := true } :: rs
    else r :: revokeFirst rs tok

/-- The number of stored rows carrying a given token string, across all
users. -/
def tokenCount (state : List CsUser) (tok : String) : Nat :=
  (state.map (fun u => u.refreshTokens.countP (fun rt => rt.token == tok))).sum

namespace AuthService

/-- The InvalidToken error message of the C# service. -/
def invalidTokenMsg : String := "Invalid or expired token"

/-- RefreshTokenAsync: find a user holding an active, unexpired row for the
presented token; absent, revoked or expired tokens all fail with
InvalidToken.  On success the old row is revoked, a fresh opaque token
(newTok, the random output of GenerateRefreshToken) is stored with a new
expiry, and a new access token is minted for the subject by the JWT
service (the genAccess argument).  Returns the pair and the new state. -/
def RefreshTokenAsync (genAccess : Nat → String → String) (state : List CsUser)
    (tok newTok : String) (now expiresAt : Nat) :
    Except String (String × String × List CsUser) :=
  match state.find? (fun u => u.refreshTokens.any (activeTokenRec tok now)) with
  | none => .error invalidTokenMsg
  | some u =>
    .ok (genAccess u.id u.email, newTok,
      state.map (fun v =>
        if v.id == u.id then
          { v with refreshTokens :=
              revokeFirst v.refreshTokens tok ++ [⟨newTok, false, expiresAt⟩] }
        else v))

end AuthService

/-! ## General lemmas about the embedded primitives -/

theorem xorBytes_length (a b : List Nat) :
    (xorBytes a b).length = min a.length b.length := by
  simp [xorBytes]

theorem xorBytes_cancel (a b : List Nat) (h : a.length ≤ b.length) :
    xorBytes (xorBytes a b) b = a := by
  induction a generalizing b with
  | nil => simp [xorBytes]
  | cons x xs ih =>
    cases b with
    | nil => simp at h
    | cons y ys =>
      simp only [xorBytes, List.zipWith] at *
      simp only [List.length_cons, Nat.add_le_add_iff_right] at h
      rw [Nat.xor_cancel_right]
      exact congrArg (x :: ·) (ih ys h)

theorem natToBytesBE_length (len n : Nat) : (natToBytesBE len n).length = len := by
  simp [natToBytesBE]

theorem aesEncryptBlock_length (key block : List Nat) :
    (aesEncryptBlock key block).length = 16 := by
  simp [aesEncryptBlock, addRoundKey]

theorem bind_const16_length (l : List Nat) (f : Nat → List Nat)
    (h : ∀ x, (f x).length = 16) : (l.flatMap f).length = 16 * l.length := by
  induction l with
  | nil => simp
  | cons x xs ih =>
    simp only [List.flatMap_cons, List.length_append, h, ih, List.length_cons]
    ring

theorem keystream_length (key iv : List Nat) (n : Nat) :
    (keystream key iv n).length = n := by
  have hb : ((List.range ((n + 15) / 16)).flatMap
      (fun i => aesEncryptBlock key (iv ++ natToBytesBE 4 (i + 2)))).length
      = 16 * ((n + 15) / 16) := by
    rw [bind_const16_length]
    · simp
    · intro x; exact aesEncryptBlock_length _ _
  have hle : n ≤ 16 * ((n + 15) / 16) := by
    have h1 := Nat.div_add_mod (n + 15) 16
    have h2 : (n + 15) % 16 < 16 := Nat.mod_lt _ (by norm_num)
    omega
  simp [keystream, hb, Nat.min_eq_left hle]

theorem gcmEncrypt_ct_length (key iv pt : List Nat) :
    (gcmEncrypt key iv pt).1.length = pt.length := by
  simp [gcmEncrypt, xorBytes_length, keystream_length]

/-- Core GCM round trip: decrypting the output of encryption under the same
key and IV returns the plaintext. -/
theorem gcmDecrypt_gcmEncrypt (key iv pt : List Nat) :
    gcmDecrypt key iv (gcmEncrypt key iv pt).1 (gcmEncrypt key iv pt).2 = some pt := by
  have hct : (gcmEncrypt key iv pt).1 = xorBytes pt (keystream key iv pt.length) := rfl
  have hlen : (gcmEncrypt key iv pt).1.length = pt.length := gcmEncrypt_ct_length key iv pt
  have htag : (gcmEncrypt key iv pt).2 = gcmTag key iv (gcmEncrypt key iv pt).1 := rfl
  rw [gcmDecrypt, if_pos htag, hlen, hct]
  rw [xorBytes_cancel]
  rw [keystream_length]

/-! ## Claim C3: encrypt/decrypt round trip -/

/-- Claim C3: for every plaintext and every environment whose configured key
loads (hence is exactly 32 bytes), encrypt produces the triple of GCM
ciphertext, the fresh 12-byte IV and the GCM tag, and decrypt on that triple
under the same key returns exactly the plaintext. -/
theorem encrypt_decrypt_roundtrip (env : Option String) (key ivR pt : List Nat)
    (hkey : Crypto.getEncryptionKey env = .ok key) (hiv : ivR.length = 12) :
    Crypto.encrypt env ivR pt
        = .ok ((gcmEncrypt key ivR pt).1, ivR, (gcmEncrypt key ivR pt).2)
    ∧ Crypto.decrypt env (gcmEncrypt key ivR pt).1 ivR (gcmEncrypt key ivR pt).2
        = .ok pt := by
  refine ⟨?_, ?_⟩
  · simp [Crypto.encrypt, hkey]
  · simp [Crypto.decrypt, hkey, gcmDecrypt_gcmEncrypt]

/-- Witness for C3 at a concrete 32-byte key, 12-byte IV and 3-byte
plaintext. -/
theorem encrypt_decrypt_roundtrip_witness :
    Crypto.decrypt (some "AAAAAAAAAAAAAAAAAAAAAAAAAAAAAAAAAAAAAAAAAAA=")
        (gcmEncrypt (List.replicate 32 0) (List.replicate 12 0) [1, 2, 3]).1
        (List.replicate 12 0)
        (gcmEncrypt (List.replicate 32 0) (List.replicate 12 0) [1, 2, 3]).2
      = .ok [1, 2, 3] :=
  (encrypt_decrypt_roundtrip (some "AAAAAAAAAAAAAAAAAAAAAAAAAAAAAAAAAAAAAAAAAAA=")
    (List.replicate 32 0) (List.replicate 12 0) [1, 2, 3] (by rfl) (by decide)).2

/-! ## Claim C6: key loading and startup validation -/

/-- Claim C6: an absent key or one that does not decode to exactly 32 bytes
makes key loading fail and the startup check report the configuration as
not valid, and every encrypt or decrypt call then fails as well; a present
key decoding to 32 bytes loads successfully and the startup check reports
configured and valid. -/
theorem keyConfiguration_spec :
    (Crypto.getEncryptionKey none).isOk = false
    ∧ (Crypto.verifyKeyConfiguration none).configured = false
    ∧ (∀ s, (base64decode s).length ≠ 32 →
        (Crypto.getEncryptionKey (some s)).isOk = false
        ∧ (Crypto.verifyKeyConfiguration (some s)).configured = false)
    ∧ (∀ s, s ≠ "" → (base64decode s).length = 32 →
        Crypto.getEncryptionKey (some s) = .ok (base64decode s)
        ∧ Crypto.verifyKeyConfiguration (some s) = ⟨true, true⟩)
    ∧ (∀ env ivR pt ct iv tag, (Crypto.getEncryptionKey env).isOk = false →
        (Crypto.encrypt env ivR pt).isOk = false
        ∧ (Crypto.decrypt env ct iv tag).isOk = false) := by
  refine ⟨rfl, rfl, ?_, ?_, ?_⟩
  · intro s h
    by_cases hs : s = ""
    · subst hs
      exact ⟨rfl, rfl⟩
    · constructor
      · simp [Crypto.getEncryptionKey, hs, h, Except.isOk, Except.toBool]
      · simp [Crypto.verifyKeyConfiguration, Crypto.getEncryptionKey, hs, h]
  · intro s hs h
    constructor
    · simp [Crypto.getEncryptionKey, hs, h]
    · simp [Crypto.verifyKeyConfiguration, Crypto.getEncryptionKey, hs, h]
  · intro env ivR pt ct iv tag h
    cases hge : Crypto.getEncryptionKey env with
    | ok k => rw [hge] at h; simp [Except.isOk, Except.toBool] at h
    | error e =>
      constructor
      · simp [Crypto.encrypt, hge, Except.isOk, Except.toBool]
      · simp [Crypto.decrypt, hge, Except.isOk, Except.toBool]

/-- Witness for C6 at concrete environments: a short key is rejected, a
32-byte key is accepted, and encryption under an absent key fails. -/
theorem keyConfiguration_spec_witness :
    (Crypto.getEncryptionKey (some "AA")).isOk = false
    ∧ Crypto.getEncryptionKey (some "AAAAAAAAAAAAAAAAAAAAAAAAAAAAAAAAAAAAAAAAAAA=")
        = .ok (base64decode "AAAAAAAAAAAAAAAAAAAAAAAAAAAAAAAAAAAAAAAAAAA=")
    ∧ (Crypto.encrypt none [] []).isOk = false :=
  ⟨(keyConfiguration_spec.2.2.1 "AA" (by decide)).1,
   (keyConfiguration_spec.2.2.2.1 "AAAAAAAAAAAAAAAAAAAAAAAAAAAAAAAAAAAAAAAAAAA="
      (by decide) (by decide)).1,
   (keyConfiguration_spec.2.2.2.2 none [] [] [] [] [] keyConfiguration_spec.1).1⟩

/-! ## Claim C2: three-way classification of the read path -/

/-- Claim C2: each stored record is classified into exactly one of three
outcomes.  A failed decryption yields the corrupted marker; a successful
decryption whose recomputed digest differs from the stored one yields the
tampered marker, with the marker string and not the decrypted bytes as
content; passing both checks yields the plaintext with tampered false.  The
three cases are mutually exclusive because they are driven by the value of
the same decryption result and integrity check. -/
theorem readOne_classification (env : Option String) (t : JsTodo) :
    (∃ e, Crypto.decrypt env t.encryptedContent t.iv t.authTag = .error e
        ∧ TodoController.readOne env t = ⟨t.id, .marker corruptedMsg, true⟩)
    ∨ (∃ pt, Crypto.decrypt env t.encryptedContent t.iv t.authTag = .ok pt
        ∧ Hash.verifyIntegrity pt t.integrityHash = false
        ∧ TodoController.readOne env t = ⟨t.id, .marker tamperedMsg, true⟩)
    ∨ (∃ pt, Crypto.decrypt env t.encryptedContent t.iv t.authTag = .ok pt
        ∧ Hash.verifyIntegrity pt t.integrityHash = true
        ∧ TodoController.readOne env t = ⟨t.id, .text pt, false⟩) := by
  cases hd : Crypto.decrypt env t.encryptedContent t.iv t.authTag with
  | error e =>
    exact .inl ⟨e, rfl, by simp [TodoController.readOne, hd]⟩
  | ok pt =>
    by_cases hv : Hash.verifyIntegrity pt t.integrityHash
    · exact .inr (.inr ⟨pt, rfl, hv, by simp [TodoController.readOne, hd, hv]⟩)
    · exact .inr (.inl ⟨pt, rfl, by simpa using hv,
        by simp [TodoController.readOne, hd, hv]⟩)

/-! ## Claim C5: batch reads never abort on a bad record -/

/-- Claim C5: the batch read produces exactly one entry per fetched record,
the entry at every position is the independent classification of the record
at that position (so one record's failure cannot abort or alter the others),
and a record whose decryption fails contributes the non-sensitive
placeholder message with the tampered status flag. -/
theorem getTodos_batch_independent (env : Option String) (todos : List JsTodo) :
    (TodoController.getTodos env todos).length = todos.length
    ∧ (∀ i : Nat, (TodoController.getTodos env todos)[i]?
        = (todos[i]?).map (TodoController.readOne env))
    ∧ (∀ t ∈ todos,
        (Crypto.decrypt env t.encryptedContent t.iv t.authTag).isOk = false →
        (⟨t.id, .marker corruptedMsg, true⟩ : TodoView)
          ∈ TodoController.getTodos env todos) := by
  refine ⟨by simp [TodoController.getTodos], ?_, ?_⟩
  · intro i
    simp [TodoController.getTodos]
  · intro t hm hd
    have hr : TodoController.readOne env t = ⟨t.id, .marker corruptedMsg, true⟩ := by
      cases he : Crypto.decrypt env t.encryptedContent t.iv t.authTag with
      | error e => simp [TodoController.readOne, he]
      | ok pt => rw [he] at hd; simp [Except.isOk, Except.toBool] at hd
    exact hr ▸ List.mem_map_of_mem (TodoController.readOne env) hm

/-- Witness for C5: a store of two records under an absent key; both fail to
decrypt and both placeholder entries appear, none aborts the other. -/
theorem getTodos_batch_independent_witness :
    (⟨5, .marker corruptedMsg, true⟩ : TodoView)
      ∈ TodoController.getTodos none
          [⟨5, 1, [9], [0], [0], "h", 0, 0⟩, ⟨6, 1, [8], [0], [0], "h", 0, 0⟩] :=
  (getTodos_batch_independent none
      [⟨5, 1, [9], [0], [0], "h", 0, 0⟩, ⟨6, 1, [8], [0], [0], "h", 0, 0⟩]).2.2
    ⟨5, 1, [9], [0], [0], "h", 0, 0⟩ (by simp) (by decide)

/-! ## Claim C10: exact case-sensitive digest comparison -/

theorem hexDigit_lower_stable (n : Nat) : Char.toLower (hexDigit n) = hexDigit n := by
  have h : n % 16 < 16 := Nat.mod_lt _ (by norm_num)
  unfold hexDigit
  generalize n % 16 = m at h ⊢
  interval_cases m <;> decide

theorem computeSHA256_lowercase (content : List Nat) :
    asciiLower (Hash.computeSHA256 content) = Hash.computeSHA256 content := by
  simp [Hash.computeSHA256, hexLower, asciiLower, List.map_flatMap, hexDigit_lower_stable]

set_option maxRecDepth 4000 in
/-- Claim C10: verifyIntegrity holds exactly when the stored hash is
character-for-character the lowercase hex SHA-256 of the content; the
produced digests are lowercase-stable, the uppercase rendition of a correct
digest is rejected by the Node comparison, and the C# VerifyIntegrity,
comparing with OrdinalIgnoreCase, accepts that same uppercase digest. -/
theorem verifyIntegrity_exact_compare :
    (∀ content stored, Hash.verifyIntegrity content stored = true
        ↔ stored = hexLower (sha256 content))
    ∧ (∀ content, asciiLower (Hash.computeSHA256 content) = Hash.computeSHA256 content)
    ∧ Hash.verifyIntegrity [97] (asciiUpper (Hash.computeSHA256 [97])) = false
    ∧ HashService.VerifyIntegrity [97] (asciiUpper (Hash.computeSHA256 [97])) = true := by
  refine ⟨?_, computeSHA256_lowercase, by decide, by decide⟩
  intro content stored
  simp only [Hash.verifyIntegrity, Hash.computeSHA256, beq_iff_eq]
  exact eq_comm

/-! ## Claim C7: federated-only credentials cannot be password-verified -/

/-- Claim C7: against a credential without a stored password digest,
comparePassword returns false for every candidate and for every behaviour of
the external bcrypt library (the library is never consulted, so nothing can
throw), and the login route rejects such an account before any password
comparison. -/
theorem comparePassword_federated (bc : String → String → Bool) (u : JsUser)
    (cand : String) (h : u.passwordHash = none) :
    comparePassword bc u cand = false
    ∧ (∀ env users email now, users.find? (fun v => v.email == email) = some u →
        AuthController.login env bc users email cand now = .googleOnly) := by
  constructor
  · simp [comparePassword, strFalsy, h]
  · intro env users email now hf
    simp [AuthController.login, hf, strFalsy, h]

/-- Witness for C7: a Google-only user, under a bcrypt stub that accepts
everything; verification still fails and login is still rejected. -/
theorem comparePassword_federated_witness :
    comparePassword (fun _ _ => true) ⟨1, "e", "n", none, some "g"⟩ "pw" = false
    ∧ AuthController.login ⟨"s", none, none, none⟩ (fun _ _ => true)
        [⟨1, "e", "n", none, some "g"⟩] "e" "pw" 0 = .googleOnly :=
  ⟨(comparePassword_federated (fun _ _ => true) ⟨1, "e", "n", none, some "g"⟩
      "pw" rfl).1,
   (comparePassword_federated (fun _ _ => true) ⟨1, "e", "n", none, some "g"⟩
      "pw" rfl).2 ⟨"s", none, none, none⟩ [⟨1, "e", "n", none, some "g"⟩] "e" 0 rfl⟩

/-! ## Claim C9: refresh verification ignores the type claim -/

/-- Claim C9: refresh-token verification checks only the signing secret
(refresh secret, falling back to the access secret) and expiry — its outcome
is unchanged under any value of the type claim — and therefore, when no
separate refresh secret is configured, the refresh route accepts an
unexpired access token and issues a new access token for its subject. -/
theorem refreshAccepts_access_token :
    (∀ u ty ty2 s iat iat2 texp sec now,
        (jwtVerify ⟨⟨u, ty⟩, s, iat, texp⟩ sec now).isOk
          = (jwtVerify ⟨⟨u, ty2⟩, s, iat2, texp⟩ sec now).isOk)
    ∧ (∀ env : JsEnv, env.jwtRefreshSecret = none →
        ∀ (userIds : List Nat) (uid now now2 : Nat),
          uid ∈ userIds → now2 < now + accessTtl env →
          AuthController.refresh env userIds
              (some (AuthMw.generateAccessToken env uid now)) now2
            = .success (AuthMw.generateAccessToken env uid now2)) := by
  constructor
  · intro u ty ty2 s iat iat2 texp sec now
    by_cases h1 : s = sec
    · by_cases h2 : texp ≤ now <;>
        simp [jwtVerify, h1, h2, Except.isOk, Except.toBool]
    · simp [jwtVerify, h1, Except.isOk, Except.toBool]
  · intro env he userIds uid now now2 hm hlt
    have hsec : refreshSecret env = env.jwtSecret := by simp [refreshSecret, he]
    simp [AuthController.refresh, AuthMw.verifyRefreshToken, jwtVerify,
      AuthMw.generateAccessToken, hsec, Nat.not_le.mpr hlt]
    exact hm

/-- Witness for C9: with a single shared secret, an access token minted at
time 0 is accepted by refresh at time 10 and a fresh access token for the
same subject is returned. -/
theorem refreshAccepts_access_token_witness :
    AuthController.refresh ⟨"s", none, none, none⟩ [7]
        (some (AuthMw.generateAccessToken ⟨"s", none, none, none⟩ 7 0)) 10
      = .success (AuthMw.generateAccessToken ⟨"s", none, none, none⟩ 7 10) :=
  refreshAccepts_access_token.2 ⟨"s", none, none, none⟩ rfl [7] 7 0 10
    (by decide) (by decide)

/-! ## Claim C1: refresh-token rotation -/

theorem find?_decomp {α : Type} (p : α → Bool) :
    ∀ (l : List α) (u : α), l.find? p = some u →
      ∃ l1 l2, l = l1 ++ u :: l2 ∧ ∀ a ∈ l1, p a = false := by
  intro l
  induction l with
  | nil => intro u h; simp at h
  | cons x xs ih =>
    intro u h
    by_cases hx : p x
    · rw [List.find?_cons_of_pos _ hx] at h
      obtain rfl := Option.some.inj h
      exact ⟨[], xs, rfl, by simp⟩
    · rw [List.find?_cons_of_neg _ hx] at h
      obtain ⟨l1, l2, rfl, hall⟩ := ih u h
      refine ⟨x :: l1, l2, rfl, ?_⟩
      intro a ha
      rcases List.mem_cons.mp ha with rfl | ha2
      · simpa using hx
      · exact hall a ha2

theorem revokeFirst_all_revoked (l : List RefreshTokenRec) (tok : String)
    (h : l.countP (fun rt => rt.token == tok) ≤ 1) :
    ∀ rt ∈ revokeFirst l tok, rt.token = tok → rt.isRevoked = true := by
  induction l with
  | nil => intro rt hm; simp [revokeFirst] at hm
  | cons r rs ih =>
    intro rt hm htok
    by_cases hr : r.token == tok
    · simp only [revokeFirst, if_pos hr] at hm
      rcases List.mem_cons.mp hm with rfl | hm2
      · rfl
      · exfalso
        have hc : rs.countP (fun x => x.token == tok) = 0 := by
          rw [List.countP_cons, if_pos hr] at h
          omega
        have := List.countP_eq_zero.mp hc rt hm2
        simp [htok] at this
    · simp only [revokeFirst, if_neg hr] at hm
      rcases List.mem_cons.mp hm with rfl | hm2
      · exact absurd (by simp [htok]) hr
      · refine ih ?_ rt hm2 htok
        rw [List.countP_cons, if_neg hr] at h
        omega

theorem cnt_le_tokenCount (state : List CsUser) (tok : String) (v : CsUser)
    (hv : v ∈ state) :
    v.refreshTokens.countP (fun x => x.token == tok) ≤ tokenCount state tok :=
  List.single_le_sum (fun x _ => Nat.zero_le x) _
    (List.mem_map_of_mem (fun u => u.refreshTokens.countP (fun x => x.token == tok)) hv)

set_option maxHeartbeats 1000000 in
/-- Claim C1 (amended): in the C# service, whose refresh tokens live in a
server-side store, a refresh with a stored active unexpired token succeeds
and returns a new token pair; provided the presented token occurs on at most
one stored row (tokens are random) and the freshly generated replacement
differs from it, any subsequent refresh replaying the same token fails with
InvalidToken, at any later time and for any fresh token.  The Node service
is refuted separately: it performs no rotation at all. -/
theorem csRefresh_rotation (genAccess genAccess2 : Nat → String → String)
    (state : List CsUser) (tok newTok newTok2 : String)
    (now now2 expAt expAt2 : Nat)
    (hcount : tokenCount state tok ≤ 1) (hne : newTok ≠ tok) :
    (∀ u ∈ state, ∀ r ∈ u.refreshTokens, activeTokenRec tok now r = true →
      ∃ acc st2, AuthService.RefreshTokenAsync genAccess state tok newTok now expAt
        = .ok (acc, newTok, st2))
    ∧ (∀ acc rt st2,
        AuthService.RefreshTokenAsync genAccess state tok newTok now expAt
          = .ok (acc, rt, st2) →
        AuthService.RefreshTokenAsync genAccess2 st2 tok newTok2 now2 expAt2
          = .error AuthService.invalidTokenMsg) := by
  constructor
  · intro u hu r hr hact
    cases hf : state.find? (fun v => v.refreshTokens.any (activeTokenRec tok now)) with
    | none =>
      exfalso
      have := List.find?_eq_none.mp hf u hu
      exact this (List.any_eq_true.mpr ⟨r, hr, hact⟩)
    | some v =>
      refine ⟨genAccess v.id v.email, state.map (fun w =>
        if w.id == v.id then
          { w with refreshTokens :=
              revokeFirst w.refreshTokens tok ++ [⟨newTok, false, expAt⟩] }
        else w), ?_⟩
      simp [AuthService.RefreshTokenAsync, hf]
  · intro acc rt st2 hok
    unfold AuthService.RefreshTokenAsync at hok
    cases hf : state.find? (fun v => v.refreshTokens.any (activeTokenRec tok now)) with
    | none => rw [hf] at hok; exact absurd hok (by simp)
    | some u =>
      rw [hf] at hok
      have hst2 : state.map (fun v =>
          if v.id == u.id then
            { v with refreshTokens :=
                revokeFirst v.refreshTokens tok ++ [⟨newTok, false, expAt⟩] }
          else v) = st2 := by
        have hinj := Except.ok.inj hok
        exact congrArg (fun p => p.2.2) hinj
      -- the user found holds an active row for the token
      have hpu0 := List.find?_some hf
      have hpu : u.refreshTokens.any (activeTokenRec tok now) = true := hpu0
      obtain ⟨r0, hr0, hact0⟩ := List.any_eq_true.mp hpu
      have htok0 : (r0.token == tok) = true := by
        simp only [activeTokenRec, Bool.and_eq_true] at hact0
        exact hact0.1.1
      have hcu : 1 ≤ u.refreshTokens.countP (fun x => x.token == tok) :=
        List.countP_pos_iff.mpr ⟨r0, hr0, htok0⟩
      -- split the store around the found user
      obtain ⟨l1, l2, hsplit, -⟩ :=
        find?_decomp (fun v => v.refreshTokens.any (activeTokenRec tok now)) state u hf
      have hsum : tokenCount state tok
          = (l1.map (fun v => v.refreshTokens.countP (fun x => x.token == tok))).sum
            + u.refreshTokens.countP (fun x => x.token == tok)
            + (l2.map (fun v => v.refreshTokens.countP (fun x => x.token == tok))).sum := by
        rw [hsplit]
        simp [tokenCount]
        ring
      have hz1 : (l1.map (fun v => v.refreshTokens.countP (fun x => x.token == tok))).sum
          = 0 := by omega
      have hz2 : (l2.map (fun v => v.refreshTokens.countP (fun x => x.token == tok))).sum
          = 0 := by omega
      have hside : ∀ v, v ∈ l1 ∨ v ∈ l2 →
          v.refreshTokens.countP (fun x => x.token == tok) = 0 := by
        intro v hv
        rcases hv with hv | hv
        · have hle := List.single_le_sum (l := l1.map
            (fun v => v.refreshTokens.countP (fun x => x.token == tok)))
            (fun x _ => Nat.zero_le x) _ (List.mem_map_of_mem _ hv)
          omega
        · have hle := List.single_le_sum (l := l2.map
            (fun v => v.refreshTokens.countP (fun x => x.token == tok)))
            (fun x _ => Nat.zero_le x) _ (List.mem_map_of_mem _ hv)
          omega
      -- every row for the token in the new store is revoked
      have hnoactive : ∀ v2 ∈ st2, v2.refreshTokens.any (activeTokenRec tok now2) = false := by
        intro v2 hv2
        rw [← hst2] at hv2
        obtain ⟨v, hv, rfl⟩ := List.mem_map.mp hv2
        by_cases hid : v.id == u.id
        · simp only [if_pos hid]
          rw [Bool.eq_false_iff]
          intro hany
          obtain ⟨r2, hr2, hact2⟩ := List.any_eq_true.mp hany
          simp only [activeTokenRec, Bool.and_eq_true, beq_iff_eq] at hact2
          obtain ⟨⟨htk2, hrev2⟩, -⟩ := hact2
          rcases List.mem_append.mp hr2 with hr2a | hr2b
          · have hvle : v.refreshTokens.countP (fun x => x.token == tok) ≤ 1 := by
              have := cnt_le_tokenCount state tok v hv
              omega
            have := revokeFirst_all_revoked v.refreshTokens tok hvle r2 hr2a htk2
            rw [this] at hrev2
            simp at hrev2
          · have : r2 = ⟨newTok, false, expAt⟩ := by simpa using hr2b
            rw [this] at htk2
            exact hne htk2
        · simp only [if_neg hid]
          rw [Bool.eq_false_iff]
          intro hany
          obtain ⟨r2, hr2, hact2⟩ := List.any_eq_true.mp hany
          simp only [activeTokenRec, Bool.and_eq_true] at hact2
          have hvz : v.refreshTokens.countP (fun x => x.token == tok) = 0 := by
            apply hside
            have hvmem : v ∈ l1 ++ u :: l2 := hsplit ▸ hv
            rcases List.mem_append.mp hvmem with h1 | h2

            · exact Or.inl h1
            · rcases List.mem_cons.mp h2 with rfl | h3
              · exact absurd (by simp) hid
              · exact Or.inr h3
          exact absurd hact2.1.1 (List.countP_eq_zero.mp hvz r2 hr2)
      have hfind2 : st2.find? (fun v => v.refreshTokens.any (activeTokenRec tok now2))
          = none :=
        List.find?_eq_none.mpr (fun v2 hv2 => by simp [hnoactive v2 hv2])
      simp [AuthService.RefreshTokenAsync, hfind2]

/-- Witness for C1: one user, one active stored token.  The first refresh
succeeds, revokes the used row and stores the replacement; the replay of the
same token fails with InvalidToken. -/
theorem csRefresh_rotation_witness :
    AuthService.RefreshTokenAsync (fun _ _ => "acc2")
        [⟨1, "e", [⟨"t0", true, 100⟩, ⟨"t1", false, 8⟩]⟩] "t0" "t2" 1 9
      = .error AuthService.invalidTokenMsg :=
  (csRefresh_rotation (fun _ _ => "acc") (fun _ _ => "acc2")
      [⟨1, "e", [⟨"t0", false, 100⟩]⟩] "t0" "t1" "t2" 0 1 8 9
      (by decide) (by decide)).2
    "acc" "t1" [⟨1, "e", [⟨"t0", true, 100⟩, ⟨"t1", false, 8⟩]⟩] rfl

/-- Counterexample for C1 as stated about the Node service: its refresh
route is stateless, so after a first successful refresh of token T the very
same token is accepted again at any later pre-expiry time — the replay is
not rejected with InvalidToken — and each success returns a new access token
only, not a new token pair. -/
theorem jsRefresh_replay_not_rejected :
    AuthController.refresh ⟨"s", none, none, none⟩ [1]
        (some (AuthMw.generateRefreshToken ⟨"s", none, none, none⟩ 1 0)) 10
      = .success (AuthMw.generateAccessToken ⟨"s", none, none, none⟩ 1 10)
    ∧ AuthController.refresh ⟨"s", none, none, none⟩ [1]
        (some (AuthMw.generateRefreshToken ⟨"s", none, none, none⟩ 1 0)) 20
      = .success (AuthMw.generateAccessToken ⟨"s", none, none, none⟩ 1 20) :=
  ⟨rfl, rfl⟩

/-! ## Claim C8: shape of issued refresh tokens -/

/-- Counterexample for C8: the refresh token issued by the Node middleware
is a signed JWT, not an opaque random string — verifying it under the
refresh secret succeeds and recovers its claim set, here the subject and the
type refresh claim. -/
theorem jsRefreshToken_is_signed_jwt :
    AuthMw.verifyRefreshToken ⟨"s", none, none, none⟩
        (AuthMw.generateRefreshToken ⟨"s", none, none, none⟩ 1 0) 0
      = .ok ⟨1, some "refresh"⟩ :=
  rfl

/-- Claim C8 (amended): the Node middleware issues refresh tokens that are
JWTs signed with the refresh secret and carrying the subject and a type
claim; only the C# service treats refresh tokens as opaque server-side
state: its refresh acceptance is exactly membership of an active unexpired
row in the store, with no cryptographic inspection of the token value. -/
theorem refreshToken_shape :
    (∀ env uid now,
        (AuthMw.generateRefreshToken env uid now).payload = ⟨uid, some "refresh"⟩
        ∧ (AuthMw.generateRefreshToken env uid now).secret = refreshSecret env)
    ∧ (∀ genAccess (state : List CsUser) tok newTok now expAt,
        (AuthService.RefreshTokenAsync genAccess state tok newTok now expAt).isOk
            = true
          ↔ ∃ u ∈ state, ∃ r ∈ u.refreshTokens, activeTokenRec tok now r = true) := by
  constructor
  · intro env uid now
    exact ⟨rfl, rfl⟩
  · intro genAccess state tok newTok now expAt
    cases hf : state.find? (fun u => u.refreshTokens.any (activeTokenRec tok now)) with
    | none =>
      simp only [AuthService.RefreshTokenAsync, hf]
      constructor
      · intro h
        simp [Except.isOk, Except.toBool] at h
      · rintro ⟨u, hu, r, hr, hact⟩
        exact absurd (List.any_eq_true.mpr ⟨r, hr, hact⟩)
          (List.find?_eq_none.mp hf u hu)
    | some u =>
      simp only [AuthService.RefreshTokenAsync, hf]
      constructor
      · intro _
        have hpu0 := List.find?_some hf
        have hpu : u.refreshTokens.any (activeTokenRec tok now) = true := hpu0
        obtain ⟨r, hr, hact⟩ := List.any_eq_true.mp hpu
        exact ⟨u, List.mem_of_find?_eq_some hf, r, hr, hact⟩
      · intro _
        simp [Except.isOk, Except.toBool]

/-- Witness for C8: a store holding one active row accepts exactly that
token. -/
theorem refreshToken_shape_witness :
    (AuthService.RefreshTokenAsync (fun _ _ => "a") [⟨1, "e", [⟨"t0", false, 5⟩]⟩]
        "t0" "t1" 0 9).isOk = true :=
  (refreshToken_shape.2 (fun _ _ => "a") [⟨1, "e", [⟨"t0", false, 5⟩]⟩]
      "t0" "t1" 0 9).mpr
    ⟨⟨1, "e", [⟨"t0", false, 5⟩]⟩, by simp, ⟨"t0", false, 5⟩, by simp, by decide⟩

/-! ## Claim C4: ownership scoping of record operations -/

theorem eraseOwned_mem (store : List JsTodo) (userId todoId : Nat) (t : JsTodo)
    (ht : t ∈ store) (hno : (t.id == todoId && t.userId == userId) = false) :
    t ∈ TodoController.eraseOwned store userId todoId := by
  induction store with
  | nil => simp at ht
  | cons x xs ih =>
    rcases List.mem_cons.mp ht with rfl | hm
    · simp [TodoController.eraseOwned, hno]
    · by_cases hx : (x.id == todoId && x.userId == userId)
      · simp only [TodoController.eraseOwned, if_pos hx]
        exact hm
      · simp only [TodoController.eraseOwned, if_neg hx]
        exact List.mem_cons.mpr (Or.inr (ih hm))

/-- Claim C4: a record whose stored owner differs from the caller is never
returned, modified or deleted.  When no record matches both the id and the
caller, update and delete report not-found and leave the store unchanged;
the batch query returns only caller-owned records; records of other owners
survive every update and delete verbatim; deleting an existing owned record
reports the success outcome, which is distinct from not-found. -/
theorem ownership_enforced (env : Option String) (store : List JsTodo)
    (caller todoId : Nat) (ivR content : List Nat) (now : Nat) :
    ((∀ t ∈ store, ¬(t.id = todoId ∧ t.userId = caller)) →
        TodoController.updateTodo env store caller todoId ivR content now
          = (.notFound, store)
        ∧ TodoController.deleteTodo store caller todoId = (.notFound, store))
    ∧ (∀ v ∈ TodoController.findByUser store caller, v.userId = caller)
    ∧ (∀ t ∈ store, t.userId ≠ caller →
        t ∈ (TodoController.updateTodo env store caller todoId ivR content now).2
        ∧ t ∈ (TodoController.deleteTodo store caller todoId).2)
    ∧ (∀ t ∈ store, t.id = todoId → t.userId = caller →
        (TodoController.deleteTodo store caller todoId).1 = .deleted)
    ∧ TodoController.MutationResult.deleted ≠ TodoController.MutationResult.notFound := by
  have hfind_none : (∀ t ∈ store, ¬(t.id = todoId ∧ t.userId = caller)) →
      TodoController.findOwned store caller todoId = none := by
    intro hno
    apply List.find?_eq_none.mpr
    intro t ht
    intro hb
    simp only [Bool.and_eq_true, beq_iff_eq] at hb
    exact hno t ht hb
  refine ⟨?_, ?_, ?_, ?_, by decide⟩
  · intro hno
    constructor
    · simp [TodoController.updateTodo, hfind_none hno]
    · simp [TodoController.deleteTodo, hfind_none hno]
  · intro v hv
    have := (List.mem_filter.mp hv).2
    simpa using this
  · intro t ht hown
    have hb : (t.id == todoId && t.userId == caller) = false := by
      simp [hown]
    constructor
    · unfold TodoController.updateTodo
      cases TodoController.findOwned store caller todoId with
      | none => exact ht
      | some w =>
        cases Crypto.encrypt env ivR content with
        | error e => exact ht
        | ok r =>
          have : (fun x : JsTodo =>
              if x.id == todoId && x.userId == caller then
                { x with
                  encryptedContent := r.1
                  iv := r.2.1
                  authTag := r.2.2
                  integrityHash := Hash.computeSHA256 content
                  updatedAt := now }
              else x) t = t := by
            simp [hb]
          exact this ▸ List.mem_map_of_mem _ ht
    · unfold TodoController.deleteTodo
      cases TodoController.findOwned store caller todoId with
      | none => exact ht
      | some w => exact eraseOwned_mem store caller todoId t ht hb
  · intro t ht hid hown
    have hsome : (TodoController.findOwned store caller todoId).isSome := by
      apply List.find?_isSome.mpr
      exact ⟨t, ht, by simp [hid, hown]⟩
    unfold TodoController.deleteTodo
    cases hf : TodoController.findOwned store caller todoId with
    | none => rw [hf] at hsome; simp at hsome
    | some w => rfl

/-- Witness for C4: a store with one record owned by user 2.  User 3 cannot
delete it and the store is untouched; user 2 deletes it with the success
outcome. -/
theorem ownership_enforced_witness :
    TodoController.deleteTodo [⟨1, 2, [1], [0], [0], "h", 0, 0⟩] 3 1
      = (.notFound, [⟨1, 2, [1], [0], [0], "h", 0, 0⟩])
    ∧ (TodoController.deleteTodo [⟨1, 2, [1], [0], [0], "h", 0, 0⟩] 2 1).1
      = .deleted :=
  ⟨((ownership_enforced none [⟨1, 2, [1], [0], [0], "h", 0, 0⟩] 3 1 [] [] 0).1
      (by decide)).2,
   (ownership_enforced none [⟨1, 2, [1], [0], [0], "h", 0, 0⟩] 2 1 [] [] 0).2.2.2.1
     ⟨1, 2, [1], [0], [0], "h", 0, 0⟩ (by decide) rfl rfl⟩

end SecureTodo
